import Mathlib

/-!
Shallow embedding of `src/arb_bot.py`, a triangular-arbitrage bot.

Prices, volumes and amounts are embedded as exact rationals (`ℚ`); Python
float arithmetic is modelled by exact rational arithmetic, and Python's
`round(x, n)` by round-half-to-even on rationals.  Wall-clock readings
(`time.time()`) are passed in as explicit rational parameters, and the
global `config` values (`MIN_PROFIT`, `TRADE_AMOUNT`, `MAX_TRIANGLES`,
`DRY_RUN`) as explicit arguments.  The global `orderbook` store read by the
simulator is passed in as a lookup function `String → Option Book`.
-/

namespace ArbBot

/-- A tradable market as loaded from the exchange: `symbol`, `base`,
`quote` and the `active` flag (`market.get('active', True)`). -/
structure Market where
  symbol : String
  base : String
  quote : String
  active : Bool
deriving DecidableEq

/-- The hub asset: `TriangleScanner` restricts the graph to USDT pairs
(`# Only USDT pairs for now`). -/
def hub : String := "USDT"

/-- An adjacency edge `(neighbor asset, pair symbol, direction)`;
directions are the source's strings `"buy"` / `"sell"`. -/
abbrev Edge := String × String × String

/-- The keyed edge list built exactly as `TriangleScanner.build_adjacency`
appends into its `defaultdict(list)`: for every active market whose quote
or base is the hub, `adj[base].append((quote, symbol, 'buy'))` followed by
`adj[quote].append((base, symbol, 'sell'))`. -/
def adjPairs (markets : List Market) : List (String × Edge) :=
  markets.flatMap fun m =>
    if m.active ∧ (m.quote = hub ∨ m.base = hub) then
      [(m.base, (m.quote, m.symbol, "buy")), (m.quote, (m.base, m.symbol, "sell"))]
    else []

/-- `build_adjacency` read at one key: the edges appended for that asset,
in market order (the per-key append order of the `defaultdict`). A key
that was never appended to yields `[]`, matching both `adj.get(b, [])`
and the `if start not in adj` early return in `find_triangles`. -/
def build_adjacency (markets : List Market) (a : String) : List Edge :=
  ((adjPairs markets).filter fun p => decide (p.1 = a)).map fun p => p.2

/-- A triangle as built by `find_triangles`: the 3-asset path
`[USDT, b, c]`, the three pair symbols, the three direction strings, and
the display string (`'string'` in the source dict). -/
structure Triangle where
  path : List String
  pairs : List String
  directions : List String
  tstring : String
deriving DecidableEq

/-- `TriangleScanner.find_triangles`: nested iteration over the adjacency
lists starting at the hub, skipping `c == start` as the middle node,
keeping cycles whose third edge returns to the start, and truncating the
result at `config.MAX_TRIANGLES`. -/
def find_triangles (markets : List Market) (maxTriangles : Nat) : List Triangle :=
  ((build_adjacency markets hub).flatMap fun e1 =>
      (build_adjacency markets e1.1).flatMap fun e2 =>
        if e2.1 = hub then []
        else
          (build_adjacency markets e2.1).flatMap fun e3 =>
            if e3.1 = hub then
              [{ path := [hub, e1.1, e2.1],
                 pairs := [e1.2.1, e2.2.1, e3.2.1],
                 directions := [e1.2.2, e2.2.2, e3.2.2],
                 tstring := hub ++ " → " ++ e1.1 ++ " → " ++ e2.1 ++ " → " ++ hub }]
            else []).take maxTriangles

/-- An order-book snapshot as stored by `SimpleOrderBook.update`: `bids`
and `asks` as lists of `(price, volume)` pairs plus the capture time. -/
structure Book where
  bids : List (ℚ × ℚ)
  asks : List (ℚ × ℚ)
  timestamp : ℚ
deriving DecidableEq

/-- The sell-side walk of `simulate_triangle` (`direction == 'sell'`):
walk the bids, crediting `remaining * price` and stopping when a level's
volume covers the remainder, else consuming the level whole.  Returns
`(received, remaining)` as left by the loop. -/
def walk_sell : List (ℚ × ℚ) → ℚ → ℚ → ℚ × ℚ
  | [], remaining, received => (received, remaining)
  | (price, volume) :: rest, remaining, received =>
      if volume ≥ remaining then (received + remaining * price, 0)
      else walk_sell rest (remaining - volume) (received + volume * price)

/-- The buy-side walk of `simulate_triangle` (the `else` branch): walk
the asks, taking a whole level while its notional `price * volume` fits
in the remaining quote budget, else converting the remainder at that
level's price.  Returns `(acquired, remaining)` as left by the loop. -/
def walk_buy : List (ℚ × ℚ) → ℚ → ℚ → ℚ × ℚ
  | [], remaining, acquired => (acquired, remaining)
  | (price, volume) :: rest, remaining, acquired =>
      if price * volume ≤ remaining then
        walk_buy rest (remaining - price * volume) (acquired + volume)
      else (acquired + remaining / price, 0)

/-- The unfilled remainder left by the appropriate depth walk for one leg
(used to state the insufficient-depth condition of the source's
`if remaining > 0.00001` checks). -/
def leg_remaining (ob : Book) (dir : String) (amount : ℚ) : ℚ :=
  if dir = "sell" then (walk_sell ob.bids amount 0).2 else (walk_buy ob.asks amount 0).2

/-- One leg of `simulate_triangle`: run the direction's depth walk, fail
with `none` when the unfilled remainder exceeds the source's epsilon
`0.00001`, otherwise apply the 0.1% fee (`current *= 0.999`). -/
def walk_leg (ob : Book) (dir : String) (current : ℚ) : Option ℚ :=
  if dir = "sell" then
    let r := walk_sell ob.bids current 0
    if r.2 > 1 / 100000 then none else some (r.1 * (999 / 1000))
  else
    let r := walk_buy ob.asks current 0
    if r.2 > 1 / 100000 then none else some (r.1 * (999 / 1000))

/-- The `for pair, direction in zip(pairs, directions)` loop of
`simulate_triangle`: thread `current` through the legs, failing with
`none` when a leg's order book is missing (`if not ob`) or its walk
fails. -/
def run_legs (books : String → Option Book) : List (String × String) → ℚ → Option ℚ
  | [], current => some current
  | (pair, dir) :: rest, current =>
      match books pair with
      | none => none
      | some ob =>
          match walk_leg ob dir current with
          | none => none
          | some next => run_legs books rest next

/-- Python's `round(q, n)` on a rational: round half to even, at `n`
decimal digits. -/
def pyRoundTo (n : Nat) (q : ℚ) : ℚ :=
  let scaled : ℚ := q * (10 : ℚ) ^ n
  let f : ℤ := ⌊scaled⌋
  let r : ℤ :=
    if scaled - f = 1 / 2 then (if f % 2 = 0 then f else f + 1) else round scaled
  (r : ℚ) / (10 : ℚ) ^ n

/-- The opportunity dict returned by `simulate_triangle` (the
`'timestamp'` display string is not modelled; no claim touches it). -/
structure Opp where
  triangle : String
  pairs : List String
  profit_pct : ℚ
  profit_usd : ℚ
deriving DecidableEq

/-- `TriangleScanner.simulate_triangle`: walk the three legs, compute the
full-precision profit and profit percentage, reject below
`config.MIN_PROFIT`, and emit the result dict with `profit_pct` rounded
to 3 digits and `profit_usd` rounded to 2 digits. -/
def simulate_triangle (books : String → Option Book) (minProfit : ℚ)
    (t : Triangle) (amount : ℚ) : Option Opp :=
  match run_legs books (t.pairs.zip t.directions) amount with
  | none => none
  | some current =>
      let profit := current - amount
      let profit_pct := profit / amount * 100
      if profit_pct < minProfit then none
      else
        some { triangle := t.tstring, pairs := t.pairs,
               profit_pct := pyRoundTo 3 profit_pct,
               profit_usd := pyRoundTo 2 profit }

/-- The qualifying (non-`None`) simulation results of one scan over the
triangle list. -/
def qualifying (books : String → Option Book) (minProfit amount : ℚ)
    (triangles : List Triangle) : List Opp :=
  triangles.filterMap fun t => simulate_triangle books minProfit t amount

/-- One iteration of the `for triangle in scanner.triangles` loop in
`main`: keep the running `(best_opportunity, best_profit)` pair, replacing
it when `result['profit_pct'] > best_profit`. -/
def scan_step (books : String → Option Book) (minProfit amount : ℚ)
    (acc : Option Opp × ℚ) (t : Triangle) : Option Opp × ℚ :=
  match simulate_triangle books minProfit t amount with
  | none => acc
  | some r => if r.profit_pct > acc.2 then (some r, r.profit_pct) else acc

/-- The per-tick best-opportunity selection of `main`'s trading loop,
starting from `best_opportunity = None`, `best_profit = 0`. -/
def scan_best (books : String → Option Book) (minProfit amount : ℚ)
    (triangles : List Triangle) : Option Opp × ℚ :=
  triangles.foldl (scan_step books minProfit amount) (none, 0)

/-- Inputs of one scheduler tick: the two `time.time()` readings taken in
that tick (`t1` at the cooldown check, `t2` at the timestamp update) and
the order-book contents visible to its scan. -/
structure Tick where
  t1 : ℚ
  t2 : ℚ
  books : String → Option Book

/-- One tick of `main`'s trading loop: scan for the best opportunity,
and if one exists with `best_profit >= config.MIN_PROFIT`, skip it when
`time.time() - last_opportunity_time < 2` (the source's hard-coded
2-second cooldown), otherwise set `last_opportunity_time = time.time()`
and dispatch it.  Returns the dispatched opportunity (if any) and the new
`last_opportunity_time`. -/
def tick_step (minProfit amount : ℚ) (triangles : List Triangle)
    (lastTime : ℚ) (tk : Tick) : Option Opp × ℚ :=
  let best := scan_best tk.books minProfit amount triangles
  match best.1 with
  | none => (none, lastTime)
  | some o =>
      if best.2 ≥ minProfit then
        if tk.t1 - lastTime < 2 then (none, lastTime)
        else (some o, tk.t2)
      else (none, lastTime)

/-- A run of consecutive scheduler ticks: threads
`last_opportunity_time` and collects the dispatched opportunities in
order. -/
def run_sched (minProfit amount : ℚ) (triangles : List Triangle) :
    ℚ → List Tick → ℚ × List Opp
  | lastTime, [] => (lastTime, [])
  | lastTime, tk :: rest =>
      let s := tick_step minProfit amount triangles lastTime tk
      let r := run_sched minProfit amount triangles s.2 rest
      (r.1, s.1.toList ++ r.2)

/-- A recorded trade (`trade_result` dict): the ISO timestamp string is
modelled by the integer clock reading used to build the id. -/
structure Trade where
  id : String
  triangle : String
  profit_pct : ℚ
  profit_usd : ℚ
  status : String
  error : Option String
  timestamp : ℤ
deriving DecidableEq

/-- `TradeExecutor.stats`. -/
structure Stats where
  total_trades : Nat
  profitable : Nat
  total_profit : ℚ
  best_trade : ℚ
deriving DecidableEq

/-- The mutable state of a `TradeExecutor`: `self.trades` (a
`deque(maxlen=100)`, newest first) and `self.stats`. -/
structure ExecState where
  trades : List Trade
  stats : Stats
deriving DecidableEq

/-- The freshly constructed `TradeExecutor`. -/
def init_exec : ExecState :=
  { trades := [],
    stats := { total_trades := 0, profitable := 0, total_profit := 0, best_trade := 0 } }

/-- The live-mode leg loop of `TradeExecutor.execute`.  The source's loop
body only prints the leg and sleeps 0.1 s (`# This is simplified - in
reality you'd handle order placement properly`); it performs no order
submission and cannot raise, so it is an infallible iteration.  The
`Except` codomain mirrors the `try`/`except` that wraps it. -/
def run_live_legs : List String → Except String Unit
  | [] => Except.ok ()
  | _ :: rest => run_live_legs rest

/-- The `trade_result` dict built by `TradeExecutor.execute`: `dry_run`
in dry-run mode; in live mode, `executed` when the leg loop finishes and
`failed` (with zeroed profits and the error string) when it raises. -/
def make_trade (dryRun : Bool) (now : ℤ) (o : Opp) : Trade :=
  let trade_id := "TR" ++ toString now
  if dryRun then
    { id := trade_id, triangle := o.triangle, profit_pct := o.profit_pct,
      profit_usd := o.profit_usd, status := "dry_run", error := none, timestamp := now }
  else
    match run_live_legs o.pairs with
    | Except.ok _ =>
        { id := trade_id, triangle := o.triangle, profit_pct := o.profit_pct,
          profit_usd := o.profit_usd, status := "executed", error := none, timestamp := now }
    | Except.error e =>
        { id := trade_id, triangle := o.triangle, profit_pct := 0,
          profit_usd := 0, status := "failed", error := some e, timestamp := now }

/-- `TradeExecutor.execute`: build the trade, `appendleft` it into the
bounded history (the `deque(maxlen=100)` evicts the oldest on overflow),
and update the stats exactly as the source does. -/
def execute (dryRun : Bool) (now : ℤ) (o : Opp) (s : ExecState) : Trade × ExecState :=
  let tr := make_trade dryRun now o
  let trades := (tr :: s.trades).take 100
  let stats1 := { s.stats with total_trades := s.stats.total_trades + 1 }
  let stats2 :=
    if tr.profit_usd > 0 then
      { stats1 with
        profitable := stats1.profitable + 1,
        total_profit := stats1.total_profit + tr.profit_usd,
        best_trade := if tr.profit_usd > stats1.best_trade then tr.profit_usd
                      else stats1.best_trade }
    else stats1
  (tr, { trades := trades, stats := stats2 })

/-- A sequence of `execute` calls, each with its clock reading. -/
def run_execute (dryRun : Bool) (s : ExecState) (l : List (ℤ × Opp)) : ExecState :=
  l.foldl (fun st p => (execute dryRun p.1 p.2 st).2) s

/-- One `SimpleOrderBook.update(symbol, bids, asks)` call.  The source
holds `self.lock` across the whole dict assignment, so in any
interleaving each update is a single atomic step writing bids, asks and
timestamp together. -/
structure BookUpdate where
  symbol : String
  bids : List (ℚ × ℚ)
  asks : List (ℚ × ℚ)
  timestamp : ℚ

/-- Effect of one lock-guarded `update` on the store: wholesale
replacement of the symbol's snapshot. -/
def ob_update (st : String → Option Book) (u : BookUpdate) : String → Option Book :=
  fun s =>
    if s = u.symbol then some { bids := u.bids, asks := u.asks, timestamp := u.timestamp }
    else st s

/-- `SimpleOrderBook.get` (also lock-guarded): read the stored snapshot,
absent if never written. -/
def ob_get (st : String → Option Book) (symbol : String) : Option Book := st symbol

/-- The store state after an interleaved sequence of atomic updates. -/
def ob_run : (String → Option Book) → List BookUpdate → String → Option Book
  | st, [] => st
  | st, u :: rest => ob_run (ob_update st u) rest

/-- The freshly constructed store (`self.orderbooks = {}`). -/
def empty_store : String → Option Book := fun _ => none

/-- No market in the list quotes an asset against itself. -/
def no_self_pairs (markets : List Market) : Prop :=
  ∀ m ∈ markets, m.base ≠ m.quote

instance (markets : List Market) : Decidable (no_self_pairs markets) :=
  inferInstanceAs (Decidable (∀ m ∈ markets, m.base ≠ m.quote))

/-- Every listed opportunity's stored `profit_pct` is at most `q`. -/
def pct_ub (l : List Opp) (q : ℚ) : Prop :=
  ∀ r ∈ l, r.profit_pct ≤ q

instance (l : List Opp) (q : ℚ) : Decidable (pct_ub l q) :=
  inferInstanceAs (Decidable (∀ r ∈ l, r.profit_pct ≤ q))

/-- Each tick's first clock reading precedes its second. -/
def ticks_ordered (ticks : List Tick) : Prop :=
  ∀ tk ∈ ticks, tk.t1 ≤ tk.t2

instance (ticks : List Tick) : Decidable (ticks_ordered ticks) :=
  inferInstanceAs (Decidable (∀ tk ∈ ticks, tk.t1 ≤ tk.t2))

/-- All clock readings of the tick sequence fit inside a window shorter
than `c`: the sequence's total wall-clock span is below `c`. -/
def span_lt (ticks : List Tick) (c : ℚ) : Prop :=
  ∀ a ∈ ticks, ∀ b ∈ ticks, b.t2 - a.t1 < c

instance (ticks : List Tick) (c : ℚ) : Decidable (span_lt ticks c) :=
  inferInstanceAs (Decidable (∀ a ∈ ticks, ∀ b ∈ ticks, b.t2 - a.t1 < c))

/-! Concrete example data used by witnesses and counterexamples. -/

/-- A typical hub-quoted market. -/
def c1m1 : Market := ⟨"BTC/USDT", "BTC", "USDT", true⟩

/-- A second hub-quoted market. -/
def c1m2 : Market := ⟨"ETH/USDT", "ETH", "USDT", true⟩

/-- A tick with no order-book data. -/
def c1_tick : Tick := ⟨10, 10, fun _ => none⟩

/-- The market used to exhibit the adjacency labels. -/
def c2_market : Market := ⟨"BTC/USDT", "BTC", "USDT", true⟩

/-- A small book with distinct bid and ask prices. -/
def c2_book : Book := ⟨[(5, 10)], [(2, 10)], 0⟩

/-- Pass-through price for the first leg of the first ranking triangle:
chosen so that the full-precision profit percentage is exactly 0.4001. -/
def c3a1 : ℚ := 1004001000 / 997002999

/-- Pass-through price for the first leg of the second ranking triangle:
chosen so that the full-precision profit percentage is exactly 0.4004. -/
def c3a2 : ℚ := 1004004000 / 997002999

/-- Order books for the ranking example: deep single-level books, price
`c3a1` (resp. `c3a2`) on the first leg and 1 on the others. -/
def c3_books : String → Option Book := fun s =>
  if s = "P1" then some ⟨[(c3a1, 1000000)], [], 0⟩
  else if s = "Q1" then some ⟨[(c3a2, 1000000)], [], 0⟩
  else if s = "P2" ∨ s = "P3" ∨ s = "Q2" ∨ s = "Q3" then some ⟨[(1, 1000000)], [], 0⟩
  else none

/-- First ranking triangle (full-precision profit 0.4001%). -/
def c3_T1 : Triangle :=
  ⟨["USDT", "X1", "X2"], ["P1", "P2", "P3"], ["sell", "sell", "sell"],
   "USDT → X1 → X2 → USDT"⟩

/-- Second ranking triangle (full-precision profit 0.4004%). -/
def c3_T2 : Triangle :=
  ⟨["USDT", "Y1", "Y2"], ["Q1", "Q2", "Q3"], ["sell", "sell", "sell"],
   "USDT → Y1 → Y2 → USDT"⟩

/-- The simulation result for `c3_T1` (profit percentage rounds to 0.4). -/
def c3_o1 : Opp := ⟨"USDT → X1 → X2 → USDT", ["P1", "P2", "P3"], 2 / 5, 1 / 100⟩

/-- Order books of the spec's worked example: leg 1 asks `[(20000, 1)]`,
leg 2 asks `[(0.05, 10)]`, leg 3 bids `[(1050, 10)]`. -/
def c4_books : String → Option Book := fun s =>
  if s = "L1" then some ⟨[], [(20000, 1)], 0⟩
  else if s = "L2" then some ⟨[], [(1 / 20, 10)], 0⟩
  else if s = "L3" then some ⟨[(1050, 10)], [], 0⟩
  else none

/-- The worked-example triangle: buy, buy, sell. -/
def c4_tri : Triangle :=
  ⟨["USDT", "BTC", "ALT"], ["L1", "L2", "L3"], ["buy", "buy", "sell"],
   "USDT → BTC → ALT → USDT"⟩

/-- Books whose first pair has only 1 unit of depth at price 1. -/
def c5_books : String → Option Book := fun s =>
  if s = "PA" then some ⟨[(1, 1)], [], 0⟩ else none

/-- A triangle whose first leg sells into `c5_books`'s thin book. -/
def c5_tri : Triangle :=
  ⟨["USDT", "A", "B"], ["PA", "PB", "PC"], ["sell", "sell", "sell"],
   "USDT → A → B → USDT"⟩

/-- A clearly profitable triangle for the scheduler examples. -/
def c6_T : Triangle :=
  ⟨["USDT", "A", "B"], ["R1", "R2", "R3"], ["sell", "sell", "sell"], "g"⟩

/-- Books making `c6_T` profitable (price 2 on the first leg). -/
def c6_books : String → Option Book := fun s =>
  if s = "R1" then some ⟨[(2, 100)], [], 0⟩
  else if s = "R2" ∨ s = "R3" then some ⟨[(1, 100)], [], 0⟩
  else none

/-- The simulation result for `c6_T` with amount 3. -/
def c6_o : Opp := ⟨"g", ["R1", "R2", "R3"], 99401 / 1000, 149 / 50⟩

/-- First scheduler tick (clock reading 100). -/
def c6_tick1 : Tick := ⟨100, 100, c6_books⟩

/-- Second scheduler tick, one second later. -/
def c6_tick2 : Tick := ⟨101, 101, c6_books⟩

/-- A fixed opportunity fed repeatedly to the executor. -/
def c8_opp : Opp := ⟨"t", [], 0, 0⟩

/-- 101 executor calls. -/
def c8_l : List (ℤ × Opp) := List.replicate 101 ((0 : ℤ), c8_opp)

/-! Helper lemmas about the adjacency graph. -/

/-- Unfolding membership in the keyed edge list: every appended pair comes
from one active hub-touching market, as either its buy or its sell edge. -/
lemma mem_adjPairs {markets : List Market} {a : String} {e : Edge}
    (h : (a, e) ∈ adjPairs markets) :
    ∃ m ∈ markets, (m.active ∧ (m.quote = hub ∨ m.base = hub)) ∧
      ((a = m.base ∧ e = (m.quote, m.symbol, "buy")) ∨
       (a = m.quote ∧ e = (m.base, m.symbol, "sell"))) := by
  rw [adjPairs, List.mem_bind] at h
  obtain ⟨m, hm, hmem⟩ := h
  refine ⟨m, hm, ?_⟩
  by_cases hc : m.active ∧ (m.quote = hub ∨ m.base = hub)
  · rw [if_pos hc] at hmem
    simp only [List.mem_cons, List.not_mem_nil, or_false, Prod.mk.injEq] at hmem
    exact ⟨hc, hmem⟩
  · rw [if_neg hc] at hmem
    exact absurd hmem (List.not_mem_nil _)

/-- An edge read from `build_adjacency` at key `a` is the pair `(a, e)` of
the keyed edge list. -/
lemma mem_adj_of_mem_build {markets : List Market} {a : String} {e : Edge}
    (h : e ∈ build_adjacency markets a) : (a, e) ∈ adjPairs markets := by
  rw [build_adjacency, List.mem_map] at h
  obtain ⟨p, hp, hpe⟩ := h
  rw [List.mem_filter] at hp
  obtain ⟨hp1, hp2⟩ := hp
  have h1 : p.1 = a := of_decide_eq_true hp2
  have h2 : (a, e) = (p.1, p.2) := by rw [h1, hpe]
  rw [h2, Prod.mk.eta]
  exact hp1

/-- When no market quotes an asset against itself, every edge leaving the
hub leads to a non-hub asset. -/
lemma edge_from_hub_ne {markets : List Market} {e : Edge}
    (hs : no_self_pairs markets) (h : e ∈ build_adjacency markets hub) :
    e.1 ≠ hub := by
  obtain ⟨m, hm, _, hcase⟩ := mem_adjPairs (mem_adj_of_mem_build h)
  have hbq := hs m hm
  rcases hcase with ⟨h1, h2⟩ | ⟨h1, h2⟩
  · subst h2
    intro hq
    have hq2 : m.quote = hub := hq
    exact hbq (by rw [← h1, hq2])
  · subst h2
    intro hb
    have hb2 : m.base = hub := hb
    exact hbq (by rw [hb2, h1])

/-- Every edge leaving a non-hub asset leads back to the hub: the graph is
a star around USDT. -/
lemma edge_to_hub {markets : List Market} {a : String} {e : Edge}
    (ha : a ≠ hub) (h : e ∈ build_adjacency markets a) : e.1 = hub := by
  obtain ⟨m, hm, hcond, hcase⟩ := mem_adjPairs (mem_adj_of_mem_build h)
  obtain ⟨-, hqb⟩ := hcond
  rcases hcase with ⟨h1, h2⟩ | ⟨h1, h2⟩
  · subst h2
    rcases hqb with hq | hb
    · exact hq
    · exact absurd (h1.trans hb) ha
  · subst h2
    rcases hqb with hq | hb
    · exact absurd (h1.trans hq) ha
    · exact hb

/-- C1: if no market has its base equal to its quote, `find_triangles`
returns the empty list — every edge out of a non-hub asset returns to the
hub, so the `c == start` skip eliminates every candidate — and hence a
scheduler tick over that (empty) triangle list can never dispatch a
trade. -/
theorem c1_no_triangles_without_self_pairs (markets : List Market) (n : Nat)
    (minProfit amount lastTime : ℚ) (tk : Tick)
    (hs : no_self_pairs markets) :
    find_triangles markets n = [] ∧
      (tick_step minProfit amount (find_triangles markets n) lastTime tk).1 = none := by
  have hmain : find_triangles markets n = [] := by
    unfold find_triangles
    refine Eq.trans (congrArg (List.take n) (List.bind_eq_nil.mpr ?_)) List.take_nil
    intro e1 he1
    refine List.bind_eq_nil.mpr ?_
    intro e2 he2
    exact if_pos (edge_to_hub (edge_from_hub_ne hs he1) he2)
  refine ⟨hmain, ?_⟩
  rw [hmain]
  rfl

/-- Witness for C1 at a concrete two-market list with no self-quoted
market. -/
theorem c1_witness :
    no_self_pairs [c1m1, c1m2] ∧
      find_triangles [c1m1, c1m2] 500 = [] ∧
      (tick_step (3 / 10) 3 (find_triangles [c1m1, c1m2] 500) 0 c1_tick).1 = none := by
  have h : no_self_pairs [c1m1, c1m2] := by decide
  have hc := c1_no_triangles_without_self_pairs [c1m1, c1m2] 500 (3 / 10) 3 0 c1_tick h
  exact ⟨h, hc.1, hc.2⟩

/-- C2 (code-bug evidence): for the active market BTC/USDT the source
labels the base→quote edge `"buy"` and the quote→base edge `"sell"` —
the opposite of the spec — while its own simulator interprets `"buy"` as
spending against ask levels and `"sell"` as spending against bid levels,
as the two `walk_leg` evaluations show (4 units against asks `[(2, 10)]`
buys 2 before fees; 4 units against bids `[(5, 10)]` sells for 20 before
fees). -/
theorem c2_adjacency_labels_flipped :
    build_adjacency [c2_market] "BTC" = [("USDT", "BTC/USDT", "buy")] ∧
    build_adjacency [c2_market] "USDT" = [("BTC", "BTC/USDT", "sell")] ∧
    walk_leg c2_book "buy" 4 = some (999 / 500) ∧
    walk_leg c2_book "sell" 4 = some (999 / 50) ∧
    ("buy" : String) ≠ "sell" :=
  ⟨by decide, by decide,
   by norm_num +decide [walk_leg, walk_buy, c2_book],
   by norm_num +decide [walk_leg, walk_sell, c2_book],
   by decide⟩

/-! Helper lemmas about the leg loop of the simulator. -/

/-- Splitting the leg loop: running a concatenation of leg lists runs the
first part and feeds its output into the second. -/
lemma run_legs_append (books : String → Option Book)
    (l1 l2 : List (String × String)) (x : ℚ) :
    run_legs books (l1 ++ l2) x =
      (run_legs books l1 x).bind fun y => run_legs books l2 y := by
  induction l1 generalizing x with
  | nil => rfl
  | cons q rest ih =>
      obtain ⟨pair, dir⟩ := q
      cases hob : books pair with
      | none => simp [run_legs, hob]
      | some ob =>
          cases hwl : walk_leg ob dir x with
          | none => simp [run_legs, hob, hwl]
          | some next => simp [run_legs, hob, hwl, ih next]

/-- A leg whose walk leaves more than the epsilon unfilled fails. -/
lemma walk_leg_none {ob : Book} {dir : String} {a : ℚ}
    (h : leg_remaining ob dir a > 1 / 100000) : walk_leg ob dir a = none := by
  by_cases hd : dir = "sell"
  · rw [leg_remaining, if_pos hd] at h
    simp only [walk_leg, if_pos hd]
    exact if_pos h
  · rw [leg_remaining, if_neg hd] at h
    simp only [walk_leg, if_neg hd]
    exact if_pos h

/-- C5: if the legs split as `pre ++ (pair, dir) :: post`, the prefix runs
to some intermediate amount `a`, and at that leg either no order book is
stored for `pair` or the walk leaves an unfilled remainder above the
epsilon `0.00001`, then `simulate_triangle` returns `none` for the whole
triangle — never a partial or approximate profit figure. -/
theorem c5_missing_or_thin_depth_none (books : String → Option Book) (minProfit : ℚ)
    (t : Triangle) (amount a : ℚ) (pre post : List (String × String)) (pair dir : String)
    (hsplit : t.pairs.zip t.directions = pre ++ (pair, dir) :: post)
    (hpre : run_legs books pre amount = some a)
    (hfail : (books pair).elim True fun ob => leg_remaining ob dir a > 1 / 100000) :
    simulate_triangle books minProfit t amount = none := by
  have hw : run_legs books ((pair, dir) :: post) a = none := by
    cases hob : books pair with
    | none => simp [run_legs, hob]
    | some ob =>
        rw [hob] at hfail
        have hrem : leg_remaining ob dir a > 1 / 100000 := hfail
        simp [run_legs, hob, walk_leg_none hrem]
  have hrun : run_legs books (t.pairs.zip t.directions) amount = none := by
    rw [hsplit, run_legs_append, hpre]
    exact hw
  simp [simulate_triangle, hrun]

/-- Witness for C5: a triangle whose first leg sells 3 units into a book
with a single level of volume 1, leaving remainder 2 above the epsilon. -/
theorem c5_witness :
    (c5_tri.pairs.zip c5_tri.directions =
        [] ++ ("PA", "sell") :: [("PB", "sell"), ("PC", "sell")] ∧
      run_legs c5_books [] 3 = some 3 ∧
      (c5_books "PA").elim True (fun ob => leg_remaining ob "sell" 3 > 1 / 100000)) ∧
    simulate_triangle c5_books (3 / 10) c5_tri 3 = none := by
  have h1 : c5_tri.pairs.zip c5_tri.directions =
      [] ++ ("PA", "sell") :: [("PB", "sell"), ("PC", "sell")] := rfl
  have h2 : run_legs c5_books [] 3 = some 3 := rfl
  have h3 : (c5_books "PA").elim True
      (fun ob => leg_remaining ob "sell" 3 > 1 / 100000) := by
    norm_num +decide [c5_books, leg_remaining, walk_sell]
  exact ⟨⟨h1, h2, h3⟩,
    c5_missing_or_thin_depth_none c5_books (3 / 10) c5_tri 3 3 []
      [("PB", "sell"), ("PC", "sell")] "PA" "sell" h1 h2 h3⟩

/-! Helper lemmas about the per-tick best-opportunity selection. -/

/-- Unfolding the qualifying-result list over a cons. -/
lemma qualifying_cons (books : String → Option Book) (minProfit amount : ℚ)
    (t : Triangle) (ts : List Triangle) :
    qualifying books minProfit amount (t :: ts) =
      match simulate_triangle books minProfit t amount with
      | none => qualifying books minProfit amount ts
      | some r => r :: qualifying books minProfit amount ts := by
  cases hsim : simulate_triangle books minProfit t amount with
  | none => simp [qualifying, List.filterMap_cons, hsim]
  | some r => simp [qualifying, List.filterMap_cons, hsim]

/-- The three possible outcomes of one selection step. -/
lemma scan_step_cases (books : String → Option Book) (minProfit amount : ℚ)
    (acc : Option Opp × ℚ) (t : Triangle) :
    (simulate_triangle books minProfit t amount = none ∧
       scan_step books minProfit amount acc t = acc) ∨
    (∃ r, simulate_triangle books minProfit t amount = some r ∧ r.profit_pct > acc.2 ∧
       scan_step books minProfit amount acc t = (some r, r.profit_pct)) ∨
    (∃ r, simulate_triangle books minProfit t amount = some r ∧ ¬r.profit_pct > acc.2 ∧
       scan_step books minProfit amount acc t = acc) := by
  cases hsim : simulate_triangle books minProfit t amount with
  | none => exact Or.inl ⟨rfl, by simp [scan_step, hsim]⟩
  | some r =>
      by_cases hgt : r.profit_pct > acc.2
      · exact Or.inr (Or.inl ⟨r, rfl, hgt, by simp [scan_step, hsim, hgt]⟩)
      · exact Or.inr (Or.inr ⟨r, rfl, hgt, by simp [scan_step, hsim, hgt]⟩)

/-- The running `best_profit` never decreases along the scan. -/
lemma scan_snd_le (books : String → Option Book) (minProfit amount : ℚ) :
    ∀ (ts : List Triangle) (acc : Option Opp × ℚ),
      acc.2 ≤ (ts.foldl (scan_step books minProfit amount) acc).2 := by
  intro ts
  induction ts with
  | nil => intro acc; exact le_refl _
  | cons t rest ih =>
      intro acc
      rw [List.foldl_cons]
      refine le_trans ?_ (ih (scan_step books minProfit amount acc t))
      rcases scan_step_cases books minProfit amount acc t with ⟨-, heq⟩ |
        ⟨r, -, hgt, heq⟩ | ⟨r, -, -, heq⟩
      · rw [heq]
      · rw [heq]; exact le_of_lt hgt
      · rw [heq]

/-- When a best opportunity is held, `best_profit` is its stored
`profit_pct`. -/
lemma scan_link (books : String → Option Book) (minProfit amount : ℚ) :
    ∀ (ts : List Triangle) (acc : Option Opp × ℚ),
      (∀ o, acc.1 = some o → acc.2 = o.profit_pct) →
      ∀ o, (ts.foldl (scan_step books minProfit amount) acc).1 = some o →
        (ts.foldl (scan_step books minProfit amount) acc).2 = o.profit_pct := by
  intro ts
  induction ts with
  | nil => intro acc hacc o h; exact hacc o h
  | cons t rest ih =>
      intro acc hacc o h
      rw [List.foldl_cons] at h ⊢
      refine ih _ ?_ o h
      rcases scan_step_cases books minProfit amount acc t with ⟨-, heq⟩ |
        ⟨r, -, -, heq⟩ | ⟨r, -, -, heq⟩
      · rw [heq]; exact hacc
      · rw [heq]
        intro o' ho'
        have hro : r = o' := by injection ho'
        exact congrArg Opp.profit_pct hro
      · rw [heq]; exact hacc

/-- The selected best opportunity, when starting from an accumulator, is
either the accumulator's or one of the qualifying results. -/
lemma scan_mem (books : String → Option Book) (minProfit amount : ℚ) :
    ∀ (ts : List Triangle) (acc : Option Opp × ℚ) (o : Opp),
      (ts.foldl (scan_step books minProfit amount) acc).1 = some o →
      acc.1 = some o ∨ o ∈ qualifying books minProfit amount ts := by
  intro ts
  induction ts with
  | nil => intro acc o h; exact Or.inl h
  | cons t rest ih =>
      intro acc o h
      rw [List.foldl_cons] at h
      rcases ih _ o h with hstep | hmem
      · rcases scan_step_cases books minProfit amount acc t with ⟨-, heq⟩ |
          ⟨r, hsim, -, heq⟩ | ⟨r, -, -, heq⟩
        · rw [heq] at hstep; exact Or.inl hstep
        · rw [heq] at hstep
          have hro : r = o := by injection hstep
          subst hro
          refine Or.inr ?_
          simp [qualifying_cons, hsim]
        · rw [heq] at hstep; exact Or.inl hstep
      · refine Or.inr ?_
        cases hsim : simulate_triangle books minProfit t amount with
        | none => simpa [qualifying_cons, hsim] using hmem
        | some r => simp [qualifying_cons, hsim, hmem]

/-- Every qualifying result's stored `profit_pct` is bounded by the final
`best_profit`. -/
lemma scan_ub (books : String → Option Book) (minProfit amount : ℚ) :
    ∀ (ts : List Triangle) (acc : Option Opp × ℚ),
      ∀ r ∈ qualifying books minProfit amount ts,
        r.profit_pct ≤ (ts.foldl (scan_step books minProfit amount) acc).2 := by
  intro ts
  induction ts with
  | nil => intro acc r hr; exact absurd hr (List.not_mem_nil _)
  | cons t rest ih =>
      intro acc r hr
      rw [List.foldl_cons]
      cases hsim : simulate_triangle books minProfit t amount with
      | none =>
          simp only [qualifying_cons, hsim] at hr
          exact ih _ r hr
      | some r0 =>
          simp only [qualifying_cons, hsim] at hr
          rcases List.mem_cons.mp hr with hrr | hr2
          · subst hrr
            refine le_trans ?_ (scan_snd_le books minProfit amount rest _)
            rcases scan_step_cases books minProfit amount acc t with ⟨hnone, -⟩ |
              ⟨r1, hsim1, hgt1, heq⟩ | ⟨r1, hsim1, hngt, heq⟩
            · rw [hsim] at hnone; cases hnone
            · rw [hsim] at hsim1
              have h10 : r1 = r := by injection hsim1.symm
              rw [heq, h10]
            · rw [hsim] at hsim1
              have h10 : r1 = r := by injection hsim1.symm
              rw [heq]
              rw [h10] at hngt
              exact not_lt.mp hngt
          · exact le_trans (ih _ r hr2) (le_refl _)

/-- When the scan selects a best opportunity, it is a qualifying result
whose stored `profit_pct` is maximal among all qualifying results. -/
lemma scan_best_some (books : String → Option Book) (minProfit amount : ℚ)
    (triangles : List Triangle) (o : Opp)
    (h : (scan_best books minProfit amount triangles).1 = some o) :
    o ∈ qualifying books minProfit amount triangles ∧
      pct_ub (qualifying books minProfit amount triangles) o.profit_pct := by
  have h' : (triangles.foldl (scan_step books minProfit amount) (none, 0)).1 = some o := h
  rcases scan_mem books minProfit amount triangles (none, 0) o h' with habs | hmem
  · exact absurd habs (by simp)
  refine ⟨hmem, ?_⟩
  intro r hr
  have hub := scan_ub books minProfit amount triangles (none, 0) r hr
  have hlink := scan_link books minProfit amount triangles (none, 0)
    (by intro o' ho'; simp at ho') o h'
  rw [hlink] at hub
  exact hub

/-- A dispatched opportunity is exactly the scan's selected best. -/
lemma tick_dispatch_scan (minProfit amount : ℚ) (triangles : List Triangle)
    (lt : ℚ) (tk : Tick) (o : Opp)
    (h : (tick_step minProfit amount triangles lt tk).1 = some o) :
    (scan_best tk.books minProfit amount triangles).1 = some o := by
  cases hb : (scan_best tk.books minProfit amount triangles).1 with
  | none => simp [tick_step, hb] at h
  | some o' =>
      simp only [tick_step, hb] at h
      split_ifs at h with h1 h2
      have ho : o' = o := by simpa using h
      exact congrArg some ho

/-- C7: within a single tick at most one opportunity is dispatched, and a
dispatched opportunity is one of the qualifying (non-`none`) simulation
results of that tick's triangle list, with the highest stored
`profit_pct` among them. -/
theorem c7_best_dispatch (minProfit amount : ℚ) (triangles : List Triangle)
    (lt : ℚ) (tk : Tick) (o : Opp)
    (hd : (tick_step minProfit amount triangles lt tk).1 = some o) :
    (tick_step minProfit amount triangles lt tk).1.toList.length ≤ 1 ∧
    o ∈ qualifying tk.books minProfit amount triangles ∧
    pct_ub (qualifying tk.books minProfit amount triangles) o.profit_pct := by
  have hscan := tick_dispatch_scan minProfit amount triangles lt tk o hd
  have hmain := scan_best_some tk.books minProfit amount triangles o hscan
  refine ⟨?_, hmain.1, hmain.2⟩
  rw [hd]
  simp

/-- Witness for C7 on a concrete profitable triangle: the tick dispatches
its simulation result, which is qualifying and maximal. -/
theorem c7_witness :
    ((tick_step (3 / 10) 3 [c6_T] 0 c6_tick1).1 = some c6_o) ∧
    ((tick_step (3 / 10) 3 [c6_T] 0 c6_tick1).1.toList.length ≤ 1 ∧
      c6_o ∈ qualifying c6_tick1.books (3 / 10) 3 [c6_T] ∧
      pct_ub (qualifying c6_tick1.books (3 / 10) 3 [c6_T]) c6_o.profit_pct) := by
  have hd : (tick_step (3 / 10) 3 [c6_T] 0 c6_tick1).1 = some c6_o := by
    norm_num +decide [tick_step, scan_best, scan_step, simulate_triangle, run_legs,
      walk_leg, walk_sell, walk_buy, c6_books, c6_T, c6_o, c6_tick1, pyRoundTo, round_eq]
  exact ⟨hd, c7_best_dispatch (3 / 10) 3 [c6_T] 0 c6_tick1 c6_o hd⟩

/-- C3 counterexample: two qualifying triangles with full-precision
profit percentages 0.4001 and 0.4004 both store the rounded value 0.4;
the scan keeps the first one even though the second has the higher
full-precision percentage, so the per-tick ranking does not compare
full-precision values. -/
theorem c3_rounded_ranking_counterexample :
    run_legs c3_books (c3_T1.pairs.zip c3_T1.directions) 3 = some (3012003 / 1000000) ∧
    run_legs c3_books (c3_T2.pairs.zip c3_T2.directions) 3 = some (3012012 / 1000000) ∧
    ((3012012 : ℚ) / 1000000 - 3) / 3 * 100 > ((3012003 : ℚ) / 1000000 - 3) / 3 * 100 ∧
    simulate_triangle c3_books (3 / 10) c3_T2 3 =
      some ⟨"USDT → Y1 → Y2 → USDT", ["Q1", "Q2", "Q3"], 2 / 5, 1 / 100⟩ ∧
    (scan_best c3_books (3 / 10) 3 [c3_T1, c3_T2]).1 = some c3_o1 ∧
    c3_o1.triangle ≠ "USDT → Y1 → Y2 → USDT" :=
  ⟨by norm_num +decide [run_legs, walk_leg, walk_sell, walk_buy, c3_books, c3_T1, c3a1],
   by norm_num +decide [run_legs, walk_leg, walk_sell, walk_buy, c3_books, c3_T2, c3a2],
   by norm_num,
   by norm_num +decide [simulate_triangle, run_legs, walk_leg, walk_sell, walk_buy,
     c3_books, c3_T2, c3a2, pyRoundTo, round_eq],
   by norm_num +decide [scan_best, scan_step, simulate_triangle, run_legs, walk_leg,
     walk_sell, walk_buy, c3_books, c3_T1, c3_T2, c3_o1, c3a1, c3a2, pyRoundTo, round_eq],
   by decide⟩

/-- C3 amended: the minimum-profit threshold inside `simulate_triangle`
compares the full-precision profit percentage, and the emitted
opportunity stores the rounded figures; the per-tick ranking, however,
compares those stored (3-decimal rounded) `profit_pct` values, and the
selected opportunity is maximal with respect to them among the
qualifying results (first encountered on ties) — not necessarily
maximal in full precision. -/
theorem c3_rounding_amended (books : String → Option Book) (minProfit amount f p : ℚ)
    (t : Triangle) (o : Opp) (triangles : List Triangle) (o' : Opp)
    (h1 : run_legs books (t.pairs.zip t.directions) amount = some f)
    (h2 : simulate_triangle books minProfit t amount = some o)
    (h3 : scan_best books minProfit amount triangles = (some o', p)) :
    minProfit ≤ (f - amount) / amount * 100 ∧
    o.profit_pct = pyRoundTo 3 ((f - amount) / amount * 100) ∧
    o.profit_usd = pyRoundTo 2 (f - amount) ∧
    o' ∈ qualifying books minProfit amount triangles ∧
    pct_ub (qualifying books minProfit amount triangles) o'.profit_pct := by
  have hb := scan_best_some books minProfit amount triangles o' (by rw [h3])
  simp only [simulate_triangle, h1] at h2
  by_cases hlt : (f - amount) / amount * 100 < minProfit
  · rw [if_pos hlt] at h2
    exact absurd h2 (by simp)
  · rw [if_neg hlt] at h2
    injection h2 with h2'
    refine ⟨not_lt.mp hlt, ?_, ?_, hb.1, hb.2⟩
    · rw [← h2']
    · rw [← h2']

/-- Witness for C3's amended statement at the counterexample data. -/
theorem c3_witness :
    (run_legs c3_books (c3_T1.pairs.zip c3_T1.directions) 3 = some (3012003 / 1000000) ∧
      simulate_triangle c3_books (3 / 10) c3_T1 3 = some c3_o1 ∧
      scan_best c3_books (3 / 10) 3 [c3_T1, c3_T2] = (some c3_o1, 2 / 5)) ∧
    ((3 : ℚ) / 10 ≤ ((3012003 : ℚ) / 1000000 - 3) / 3 * 100 ∧
      c3_o1.profit_pct = pyRoundTo 3 (((3012003 : ℚ) / 1000000 - 3) / 3 * 100) ∧
      c3_o1.profit_usd = pyRoundTo 2 ((3012003 : ℚ) / 1000000 - 3) ∧
      c3_o1 ∈ qualifying c3_books (3 / 10) 3 [c3_T1, c3_T2] ∧
      pct_ub (qualifying c3_books (3 / 10) 3 [c3_T1, c3_T2]) c3_o1.profit_pct) := by
  have h1 : run_legs c3_books (c3_T1.pairs.zip c3_T1.directions) 3 =
      some (3012003 / 1000000) := by
    norm_num +decide [run_legs, walk_leg, walk_sell, walk_buy, c3_books, c3_T1, c3a1]
  have h2 : simulate_triangle c3_books (3 / 10) c3_T1 3 = some c3_o1 := by
    norm_num +decide [simulate_triangle, run_legs, walk_leg, walk_sell, walk_buy,
      c3_books, c3_T1, c3a1, c3_o1, pyRoundTo, round_eq]
  have h3 : scan_best c3_books (3 / 10) 3 [c3_T1, c3_T2] = (some c3_o1, 2 / 5) := by
    norm_num +decide [scan_best, scan_step, simulate_triangle, run_legs, walk_leg,
      walk_sell, walk_buy, c3_books, c3_T1, c3_T2, c3_o1, c3a1, c3a2, pyRoundTo, round_eq]
  exact ⟨⟨h1, h2, h3⟩,
    c3_rounding_amended c3_books (3 / 10) 3 (3012003 / 1000000) (2 / 5)
      c3_T1 c3_o1 [c3_T1, c3_T2] c3_o1 h1 h2 h3⟩

/-- C4 counterexample: the worked example's exact profit percentage is
4.685314895%, so with the minimum-profit threshold set to 4.69 — which
is "at most 4.69" — the simulator rejects the opportunity and returns
`none`, contradicting the claim. -/
theorem c4_threshold_counterexample :
    simulate_triangle c4_books (469 / 100) c4_tri 3 = none := by
  norm_num +decide [simulate_triangle, run_legs, walk_leg, walk_sell, walk_buy,
    c4_books, c4_tri]

/-- C4 amended: on the worked example the three leg outputs are exactly
0.00014985, 0.002994003 (≈0.0029940) and 3.14055944685 (≈3.1406), the
profit is ≈0.1406 and the profit percentage is exactly
4.685314895% (≈4.6853, which the spec rounds to 4.69); the simulator
returns the qualifying opportunity whenever the minimum-profit threshold
is at most 4.685314895. -/
theorem c4_worked_example_amended (minProfit : ℚ)
    (h : minProfit ≤ 937062979 / 200000000) :
    run_legs c4_books [("L1", "buy")] 3 = some (2997 / 20000000) ∧
    run_legs c4_books [("L1", "buy"), ("L2", "buy")] 3 = some (2994003 / 1000000000) ∧
    |(2994003 : ℚ) / 1000000000 - 2994 / 1000000| < 1 / 100000 ∧
    run_legs c4_books (c4_tri.pairs.zip c4_tri.directions) 3 =
      some (62811188937 / 20000000000) ∧
    |(62811188937 : ℚ) / 20000000000 - 31406 / 10000| < 1 / 10000 ∧
    |((62811188937 : ℚ) / 20000000000 - 3) - 1406 / 10000| < 1 / 10000 ∧
    |((62811188937 : ℚ) / 20000000000 - 3) / 3 * 100 - 46853 / 10000| < 1 / 10000 ∧
    simulate_triangle c4_books minProfit c4_tri 3 =
      some ⟨"USDT → BTC → ALT → USDT", ["L1", "L2", "L3"], 937 / 200, 7 / 50⟩ := by
  have hr : run_legs c4_books (c4_tri.pairs.zip c4_tri.directions) 3 =
      some (62811188937 / 20000000000) := by
    norm_num +decide [run_legs, walk_leg, walk_sell, walk_buy, c4_books, c4_tri]
  have hpct : ((62811188937 : ℚ) / 20000000000 - 3) / 3 * 100 = 937062979 / 200000000 := by
    norm_num
  refine ⟨?_, ?_, by rw [abs_lt]; constructor <;> norm_num, hr,
    by rw [abs_lt]; constructor <;> norm_num,
    by rw [abs_lt]; constructor <;> norm_num,
    by rw [abs_lt]; constructor <;> norm_num, ?_⟩
  · norm_num +decide [run_legs, walk_leg, walk_buy, c4_books]
  · norm_num +decide [run_legs, walk_leg, walk_buy, c4_books]
  · simp only [simulate_triangle, hr]
    rw [hpct, if_neg (not_lt.mpr h)]
    norm_num [c4_tri, pyRoundTo, round_eq]

/-- Witness for C4's amended statement at the default 0.3% threshold. -/
theorem c4_witness :
    ((3 : ℚ) / 10 ≤ 937062979 / 200000000) ∧
    (run_legs c4_books [("L1", "buy")] 3 = some (2997 / 20000000) ∧
      run_legs c4_books [("L1", "buy"), ("L2", "buy")] 3 = some (2994003 / 1000000000) ∧
      |(2994003 : ℚ) / 1000000000 - 2994 / 1000000| < 1 / 100000 ∧
      run_legs c4_books (c4_tri.pairs.zip c4_tri.directions) 3 =
        some (62811188937 / 20000000000) ∧
      |(62811188937 : ℚ) / 20000000000 - 31406 / 10000| < 1 / 10000 ∧
      |((62811188937 : ℚ) / 20000000000 - 3) - 1406 / 10000| < 1 / 10000 ∧
      |((62811188937 : ℚ) / 20000000000 - 3) / 3 * 100 - 46853 / 10000| < 1 / 10000 ∧
      simulate_triangle c4_books (3 / 10) c4_tri 3 =
        some ⟨"USDT → BTC → ALT → USDT", ["L1", "L2", "L3"], 937 / 200, 7 / 50⟩) :=
  ⟨by norm_num, c4_worked_example_amended (3 / 10) (by norm_num)⟩

/-! Helper lemmas about the scheduler's cooldown gate. -/

/-- A tick whose first clock reading is within the cooldown window of the
stored trigger time dispatches nothing and leaves the trigger time
unchanged, regardless of what its scan finds. -/
lemma tick_step_no (minProfit amount : ℚ) (triangles : List Triangle)
    (lt : ℚ) (tk : Tick) (h : tk.t1 - lt < 2) :
    tick_step minProfit amount triangles lt tk = (none, lt) := by
  cases hsb : (scan_best tk.books minProfit amount triangles).1 with
  | none => simp [tick_step, hsb]
  | some o => simp [tick_step, hsb, h]

/-- A tick either leaves the state unchanged without dispatching, or
dispatches with the cooldown elapsed, stamping its second clock
reading. -/
lemma tick_step_out (minProfit amount : ℚ) (triangles : List Triangle)
    (lt : ℚ) (tk : Tick) :
    tick_step minProfit amount triangles lt tk = (none, lt) ∨
    ∃ o, tick_step minProfit amount triangles lt tk = (some o, tk.t2) ∧
      tk.t1 - lt ≥ 2 := by
  cases hsb : (scan_best tk.books minProfit amount triangles).1 with
  | none => exact Or.inl (by simp [tick_step, hsb])
  | some o =>
      by_cases h1 : (scan_best tk.books minProfit amount triangles).2 ≥ minProfit
      · by_cases h2 : tk.t1 - lt < 2
        · exact Or.inl (by simp [tick_step, hsb, h1, h2])
        · exact Or.inr ⟨o, by simp [tick_step, hsb, h1, h2], not_lt.mp h2⟩
      · exact Or.inl (by simp [tick_step, hsb, h1])

/-- Unfolding one step of a scheduler run. -/
lemma run_sched_cons (minProfit amount : ℚ) (triangles : List Triangle)
    (lastTime : ℚ) (tk : Tick) (rest : List Tick) :
    run_sched minProfit amount triangles lastTime (tk :: rest) =
      ((run_sched minProfit amount triangles
          (tick_step minProfit amount triangles lastTime tk).2 rest).1,
        (tick_step minProfit amount triangles lastTime tk).1.toList ++
          (run_sched minProfit amount triangles
            (tick_step minProfit amount triangles lastTime tk).2 rest).2) := rfl

/-- A run all of whose ticks fall inside the cooldown window of the
stored trigger time dispatches nothing. -/
lemma run_sched_quiet (minProfit amount : ℚ) (triangles : List Triangle) :
    ∀ (ticks : List Tick) (lt : ℚ), (∀ tk ∈ ticks, tk.t1 - lt < 2) →
      run_sched minProfit amount triangles lt ticks = (lt, []) := by
  intro ticks
  induction ticks with
  | nil => intro lt _; rfl
  | cons tk rest ih =>
      intro lt h
      have hstep := tick_step_no minProfit amount triangles lt tk
        (h tk (List.mem_cons_self _ _))
      have hrest := ih lt (fun tk2 htk2 => h tk2 (List.mem_cons_of_mem _ htk2))
      rw [run_sched_cons, hstep]
      simp [hrest]

/-- Over any tick sequence whose clock readings all fit in a window
shorter than the 2-second cooldown, at most one dispatch occurs. -/
lemma run_sched_len (minProfit amount : ℚ) (triangles : List Triangle) :
    ∀ (ticks : List Tick), ticks_ordered ticks → span_lt ticks 2 →
      ∀ lastTime, (run_sched minProfit amount triangles lastTime ticks).2.length ≤ 1 := by
  intro ticks
  induction ticks with
  | nil => intro _ _ lastTime; simp [run_sched]
  | cons tkh rest ih =>
      intro h12 hspan lastTime
      have h12r : ticks_ordered rest := fun a ha => h12 a (List.mem_cons_of_mem _ ha)
      have hspanr : span_lt rest 2 := fun a ha b hb =>
        hspan a (List.mem_cons_of_mem _ ha) b (List.mem_cons_of_mem _ hb)
      rcases tick_step_out minProfit amount triangles lastTime tkh with hno | ⟨o1, hyes, hge⟩
      · rw [run_sched_cons, hno]
        simpa using ih h12r hspanr lastTime
      · rw [run_sched_cons, hyes]
        have hquiet : run_sched minProfit amount triangles tkh.t2 rest = (tkh.t2, []) := by
          apply run_sched_quiet
          intro tk2 htk2
          have e1 : tk2.t1 ≤ tk2.t2 := h12 tk2 (List.mem_cons_of_mem _ htk2)
          have e2 : tk2.t2 - tkh.t1 < 2 :=
            hspan tkh (List.mem_cons_self _ _) tk2 (List.mem_cons_of_mem _ htk2)
          have e3 : tkh.t1 ≤ tkh.t2 := h12 tkh (List.mem_cons_self _ _)
          linarith
        simp [hquiet]

/-- A dispatching tick passed the cooldown gate and stamped its second
clock reading as the new trigger time. -/
lemma tick_step_dispatch_gate (minProfit amount : ℚ) (triangles : List Triangle)
    (lt lt2 : ℚ) (tk : Tick) (o : Opp)
    (hd : tick_step minProfit amount triangles lt tk = (some o, lt2)) :
    tk.t1 - lt ≥ 2 ∧ lt2 = tk.t2 := by
  rcases tick_step_out minProfit amount triangles lt tk with hno | ⟨o1, hyes, hge⟩
  · rw [hno] at hd
    exact absurd hd (by simp [Prod.ext_iff])
  · rw [hyes] at hd
    rw [Prod.mk.injEq] at hd
    exact ⟨hge, hd.2.symm⟩

/-- C6: over every tick sequence spanning less wall-clock time than the
2-second cooldown window, at most one dispatch occurs no matter how many
ticks find a qualifying opportunity; moreover a dispatch happens only
when the first clock reading is at least the cooldown past the stored
trigger time, and the trigger time is updated to the tick's second clock
reading at each dispatch. -/
theorem c6_cooldown_debounce (minProfit amount : ℚ) (triangles : List Triangle)
    (lastTime : ℚ) (ticks : List Tick) (tk : Tick) (lt lt2 : ℚ) (o : Opp)
    (h12 : ticks_ordered ticks) (hspan : span_lt ticks 2)
    (hd : tick_step minProfit amount triangles lt tk = (some o, lt2)) :
    (run_sched minProfit amount triangles lastTime ticks).2.length ≤ 1 ∧
      tk.t1 - lt ≥ 2 ∧ lt2 = tk.t2 :=
  ⟨run_sched_len minProfit amount triangles ticks h12 hspan lastTime,
   (tick_step_dispatch_gate minProfit amount triangles lt lt2 tk o hd).1,
   (tick_step_dispatch_gate minProfit amount triangles lt lt2 tk o hd).2⟩

/-- Witness for C6: two ticks one second apart, both seeing a profitable
book; the run dispatches exactly once, and the dispatching tick had the
cooldown elapsed and stamps its clock reading. -/
theorem c6_witness :
    (ticks_ordered [c6_tick1, c6_tick2] ∧ span_lt [c6_tick1, c6_tick2] 2 ∧
      tick_step (3 / 10) 3 [c6_T] 0 c6_tick1 = (some c6_o, 100)) ∧
    ((run_sched (3 / 10) 3 [c6_T] 0 [c6_tick1, c6_tick2]).2.length ≤ 1 ∧
      c6_tick1.t1 - 0 ≥ 2 ∧ (100 : ℚ) = c6_tick1.t2) := by
  have h12 : ticks_ordered [c6_tick1, c6_tick2] := by
    intro a ha
    rcases List.mem_cons.mp ha with h | h
    · subst h; norm_num [c6_tick1]
    · rcases List.mem_cons.mp h with h' | h'
      · subst h'; norm_num [c6_tick2]
      · exact absurd h' (List.not_mem_nil _)
  have hsp : span_lt [c6_tick1, c6_tick2] 2 := by
    intro a ha b hb
    rcases List.mem_cons.mp ha with h | h <;>
      [skip; rcases List.mem_cons.mp h with h' | h'] <;>
      rcases List.mem_cons.mp hb with g | g
    · subst h; subst g; norm_num [c6_tick1]
    · rcases List.mem_cons.mp g with g' | g'
      · subst h; subst g'; norm_num [c6_tick1, c6_tick2]
      · exact absurd g' (List.not_mem_nil _)
    · subst h'; subst g; norm_num [c6_tick1, c6_tick2]
    · rcases List.mem_cons.mp g with g' | g'
      · subst h'; subst g'; norm_num [c6_tick2]
      · exact absurd g' (List.not_mem_nil _)
    · exact absurd h' (List.not_mem_nil _)
    · exact absurd h' (List.not_mem_nil _)
  have hd : tick_step (3 / 10) 3 [c6_T] 0 c6_tick1 = (some c6_o, 100) := by
    norm_num +decide [tick_step, scan_best, scan_step, simulate_triangle, run_legs,
      walk_leg, walk_sell, walk_buy, c6_books, c6_T, c6_o, c6_tick1, pyRoundTo, round_eq]
  exact ⟨⟨h12, hsp, hd⟩,
    c6_cooldown_debounce (3 / 10) 3 [c6_T] 0 [c6_tick1, c6_tick2] c6_tick1 0 100 c6_o
      h12 hsp hd⟩

/-! Helper lemmas about the bounded trade history. -/

/-- Truncating before an append commutes with truncating after it. -/
lemma take_append_take {α : Type} (a b : List α) (n : Nat) :
    (a ++ b.take n).take n = (a ++ b).take n := by
  rw [List.take_append_eq_append_take, List.take_append_eq_append_take, List.take_take,
    min_eq_left (Nat.sub_le n a.length)]

/-- Unfolding one step of a run of `execute` calls. -/
lemma run_execute_cons (dryRun : Bool) (s : ExecState) (p : ℤ × Opp)
    (l : List (ℤ × Opp)) :
    run_execute dryRun s (p :: l) =
      run_execute dryRun (execute dryRun p.1 p.2 s).2 l := rfl

/-- The history after a run of `execute` calls is the newest-first list
of all recorded trades, truncated to the 100 most recent. -/
lemma run_execute_trades (dryRun : Bool) :
    ∀ (l : List (ℤ × Opp)) (s : ExecState), s.trades.length ≤ 100 →
      (run_execute dryRun s l).trades =
        ((l.map fun p => make_trade dryRun p.1 p.2).reverse ++ s.trades).take 100 := by
  intro l
  induction l with
  | nil =>
      intro s hs
      simp [run_execute, List.take_of_length_le hs]
  | cons p rest ih =>
      intro s hs
      rw [run_execute_cons]
      have hstep : (execute dryRun p.1 p.2 s).2.trades =
          (make_trade dryRun p.1 p.2 :: s.trades).take 100 := rfl
      have hlen : (execute dryRun p.1 p.2 s).2.trades.length ≤ 100 := by
        rw [hstep, List.length_take]
        exact min_le_left _ _
      rw [ih _ hlen, hstep, take_append_take]
      simp [List.reverse_cons, List.append_assoc]

/-- Each `execute` call increments the total-trade counter by one. -/
lemma execute_total_step (dryRun : Bool) (now : ℤ) (o : Opp) (s : ExecState) :
    (execute dryRun now o s).2.stats.total_trades = s.stats.total_trades + 1 := by
  simp only [execute]
  split_ifs <;> rfl

/-- The total-trade counter counts every `execute` call ever made. -/
lemma run_execute_total (dryRun : Bool) :
    ∀ (l : List (ℤ × Opp)) (s : ExecState),
      (run_execute dryRun s l).stats.total_trades = s.stats.total_trades + l.length := by
  intro l
  induction l with
  | nil => intro s; rfl
  | cons p rest ih =>
      intro s
      rw [run_execute_cons, ih, execute_total_step]
      simp [Nat.add_assoc, Nat.add_comm 1]

/-- C8: after more than 100 `execute` calls starting from a fresh
executor, the history holds exactly the 100 most recently recorded
trades, newest first (the oldest evicted on each overflow), the
total-trade counter equals the number of calls ever made, and each call
increments it by exactly one. -/
theorem c8_history_bound (dryRun : Bool) (l : List (ℤ × Opp)) (now : ℤ) (o : Opp)
    (s : ExecState) (h : 100 < l.length) :
    (run_execute dryRun init_exec l).trades =
      ((l.map fun p => make_trade dryRun p.1 p.2).reverse).take 100 ∧
    (run_execute dryRun init_exec l).trades.length = 100 ∧
    (run_execute dryRun init_exec l).stats.total_trades = l.length ∧
    (execute dryRun now o s).2.stats.total_trades = s.stats.total_trades + 1 := by
  have h1 : (run_execute dryRun init_exec l).trades =
      ((l.map fun p => make_trade dryRun p.1 p.2).reverse).take 100 := by
    have := run_execute_trades dryRun l init_exec (by simp [init_exec])
    simpa [init_exec] using this
  refine ⟨h1, ?_, ?_, execute_total_step dryRun now o s⟩
  · rw [h1, List.length_take, List.length_reverse, List.length_map]
    exact min_eq_left h.le
  · have := run_execute_total dryRun l init_exec
    simpa [init_exec] using this

/-- Witness for C8 at a concrete run of 101 `execute` calls. -/
theorem c8_witness :
    (100 < c8_l.length) ∧
    ((run_execute true init_exec c8_l).trades =
        ((c8_l.map fun p => make_trade true p.1 p.2).reverse).take 100 ∧
      (run_execute true init_exec c8_l).trades.length = 100 ∧
      (run_execute true init_exec c8_l).stats.total_trades = c8_l.length ∧
      (execute true 0 c8_opp init_exec).2.stats.total_trades =
        init_exec.stats.total_trades + 1) := by
  have h : 100 < c8_l.length := by
    simp only [c8_l, List.length_replicate]
    omega
  exact ⟨h, c8_history_bound true c8_l 0 c8_opp init_exec h⟩

/-! The live-mode leg loop. -/

/-- The source's live leg loop performs no order submission and never
fails. -/
lemma run_live_legs_ok : ∀ (l : List String), run_live_legs l = Except.ok () := by
  intro l
  induction l with
  | nil => rfl
  | cons p rest ih => exact ih

/-- C9 (code-bug evidence): in live mode (`DRY_RUN = false`) the leg loop
submits nothing through any order-submission capability and cannot fail,
so `execute` always records status `executed` with no error detail —
the `failed`-with-error path claimed for a failing leg submission is
unreachable — and exactly one Trade is recorded per call. -/
theorem c9_live_mode_no_submission (ps : List String) (now : ℤ) (o : Opp)
    (s : ExecState) :
    run_live_legs ps = Except.ok () ∧
    ((execute false now o s).1).status = "executed" ∧
    ((execute false now o s).1).error = none ∧
    (execute false now o s).2.trades =
      ((execute false now o s).1 :: s.trades).take 100 := by
  refine ⟨run_live_legs_ok ps, ?_, ?_, rfl⟩
  · simp [execute, make_trade, run_live_legs_ok]
  · simp [execute, make_trade, run_live_legs_ok]

/-! The order-book store as an interleaving of atomic operations. -/

/-- Any store read returns either the initial value for that symbol or
the whole snapshot written by a single one of the updates executed so
far. -/
lemma ob_run_last : ∀ (ops : List BookUpdate) (st : String → Option Book)
    (symbol : String),
    ob_run st ops symbol = st symbol ∨
      ∃ u ∈ ops, u.symbol = symbol ∧
        ob_run st ops symbol = some ⟨u.bids, u.asks, u.timestamp⟩ := by
  intro ops
  induction ops with
  | nil => intro st symbol; exact Or.inl rfl
  | cons u rest ih =>
      intro st symbol
      rcases ih (ob_update st u) symbol with h | ⟨u', hu', hsym, heq⟩
      · by_cases hs : symbol = u.symbol
        · refine Or.inr ⟨u, List.mem_cons_self _ _, hs.symm, ?_⟩
          rw [show ob_run st (u :: rest) symbol =
            ob_run (ob_update st u) rest symbol from rfl, h]
          simp [ob_update, hs]
        · refine Or.inl ?_
          rw [show ob_run st (u :: rest) symbol =
            ob_run (ob_update st u) rest symbol from rfl, h]
          simp [ob_update, hs]
      · exact Or.inr ⟨u', List.mem_cons_of_mem _ hu', hsym, heq⟩

/-- C10: in any interleaved sequence of lock-guarded store operations
(each `update` one atomic step, as the source holds the lock across the
whole dict assignment), a `get` performed after any prefix of the
updates returns either nothing or exactly the bids, asks and timestamp
written together by one single update to that symbol — never a torn
snapshot mixing two updates; and a `get` immediately after an update
returns precisely that update's whole snapshot. -/
theorem c10_snapshot_atomicity (ops : List BookUpdate) (k : Nat) (symbol : String)
    (st : String → Option Book) (u : BookUpdate) :
    (ob_get (ob_run empty_store (ops.take k)) symbol = none ∨
      ∃ v ∈ ops.take k, v.symbol = symbol ∧
        ob_get (ob_run empty_store (ops.take k)) symbol =
          some ⟨v.bids, v.asks, v.timestamp⟩) ∧
    ob_get (ob_update st u) u.symbol = some ⟨u.bids, u.asks, u.timestamp⟩ := by
  constructor
  · rcases ob_run_last (ops.take k) empty_store symbol with h | h
    · exact Or.inl h
    · exact Or.inr h
  · simp [ob_get, ob_update]

end ArbBot
